import Mathlib

/-!
Verification of the logo generator script (`scripts/gen_logos.py`) of the
emailsignatures repository.

Shallow embedding conventions:
* Python floats are modelled as real numbers (`ℝ`).
* Python `None` is `Option.none`; Python string truthiness (`if accent:`,
  `x or y`) is modelled explicitly on `Option String` / `String`.
* Fallible operations (`int(s, 16)` on malformed input) return `Option`.
* The driver's file-system and stream side effects are modelled as a pure
  trace of events.
-/

namespace GenLogos

/-- Value of one hexadecimal digit character, as accepted by Python
`int(s, 16)` for plain hex-digit strings; `none` on any other character. -/
def hexDigitVal? (c : Char) : Option Nat :=
  if '0' ≤ c ∧ c ≤ '9' then some (c.toNat - '0'.toNat)
  else if 'a' ≤ c ∧ c ≤ 'f' then some (c.toNat - 'a'.toNat + 10)
  else if 'A' ≤ c ∧ c ≤ 'F' then some (c.toNat - 'A'.toNat + 10)
  else none

/-- Accumulating worker for `hexNat?`. -/
def hexNatAux? (acc : Nat) : List Char → Option Nat
  | [] => some acc
  | c :: cs =>
    match hexDigitVal? c with
    | some d => hexNatAux? (acc * 16 + d) cs
    | none => none

/-- Model of `int(s, 16)` on a plain hex-digit string: fails on the empty
string (Python raises `ValueError`) and on non-hex characters. -/
def hexNat? (cs : List Char) : Option Nat :=
  match cs with
  | [] => none
  | _ => hexNatAux? 0 cs

/-- Model of `_hex_to_rgb`: `col.lstrip("#")` followed by parsing the slices
`col[0:2]`, `col[2:4]`, `col[4:6]` as hex integers. The division of each
channel by 255 is deferred to `relLumRGB` (the composition is unchanged). -/
def hex_to_rgb? (col : String) : Option (Nat × Nat × Nat) :=
  let cs := col.toList.dropWhile (· = '#')
  match hexNat? (cs.take 2), hexNat? ((cs.drop 2).take 2), hexNat? ((cs.drop 4).take 2) with
  | some r, some g, some b => some (r, g, b)
  | _, _, _ => none

/-- Well-formed 6-hex-digit color string (after stripping leading `#` signs,
exactly six hex digits), the precondition the specification places on colors. -/
def IsHexColor (s : String) : Prop :=
  (s.toList.dropWhile (· = '#')).length = 6 ∧
    ∀ c ∈ s.toList.dropWhile (· = '#'), (hexDigitVal? c).isSome

instance (s : String) : Decidable (IsHexColor s) := by
  unfold IsHexColor
  infer_instance

/-- The sRGB transfer function `chan` inside `_rel_lum`. -/
noncomputable def chan (c : ℝ) : ℝ :=
  if c ≤ 0.03928 then c / 12.92 else ((c + 0.055) / 1.055) ^ (2.4 : ℝ)

/-- Model of `_rel_lum` on an already-parsed RGB triple (channels in 0..255). -/
noncomputable def relLumRGB : Nat × Nat × Nat → ℝ
  | (r, g, b) =>
    0.2126 * chan ((r : ℝ) / 255) + 0.7152 * chan ((g : ℝ) / 255)
      + 0.0722 * chan ((b : ℝ) / 255)

/-- Model of `_rel_lum` on a color string. -/
noncomputable def rel_lum? (col : String) : Option ℝ :=
  (hex_to_rgb? col).map relLumRGB

/-- Model of `contrast_ratio` on parsed triples: `sorted([l1, l2],
reverse=True)` puts the larger luminance in the numerator. -/
noncomputable def contrastRGB (x y : Nat × Nat × Nat) : ℝ :=
  (max (relLumRGB x) (relLumRGB y) + 0.05) / (min (relLumRGB x) (relLumRGB y) + 0.05)

/-- Model of `contrast_ratio` on color strings. -/
noncomputable def contrastRatioOf (a b : String) : Option ℝ :=
  match hex_to_rgb? a, hex_to_rgb? b with
  | some x, some y => some (contrastRGB x y)
  | _, _ => none

/-- The `backgrounds` list built by `pick_initials_color`: Python truthiness
(`if accent:`) makes both `None` and the empty string count as absent. -/
def backgroundsOf (primary : String) (accent : Option String) : List String :=
  primary :: (match accent with
    | some s => if s = "" then [] else [s]
    | none => [])

/-- The generator `all(contrast_ratio(bg, "#FFFFFF") >= 4.5 for bg in
backgrounds)`: lazily scans the backgrounds; `none` models the `ValueError`
raised on a malformed color that is actually reached. -/
noncomputable def allContrastOkW : List String → Option Bool
  | [] => some true
  | bg :: rest =>
    match contrastRatioOf bg "#FFFFFF" with
    | some r => if 4.5 ≤ r then allContrastOkW rest else some false
    | none => none

/-- Model of `pick_initials_color`. -/
noncomputable def pick_initials_color (primary : String) (accent : Option String) :
    Option String :=
  match allContrastOkW (backgroundsOf primary accent) with
  | some true => some "white"
  | some false => some "#111827"
  | none => none

/-- ASCII character class `[A-Z]` of the tokenizing pattern. -/
def isAsciiUpper (c : Char) : Bool := 'A' ≤ c && c ≤ 'Z'

/-- ASCII character class `[a-z]` of the tokenizing pattern. -/
def isAsciiLower (c : Char) : Bool := 'a' ≤ c && c ≤ 'z'

/-- Left-to-right scanner implementing `re.findall` of the pattern
`[A-Z]+(?![a-z])|[A-Z][a-z]*|[a-z]+`: the state carries the current run
(`true` for an uppercase run, `false` for a token already committed to the
capitalized-word or lowercase-word alternatives). An uppercase run of length
`n ≥ 2` followed by a lowercase letter matches only its first `n - 1` letters
(greedy match plus one step of backtracking for the `(?![a-z])` lookahead),
and the last uppercase letter starts a capitalized word. -/
def scanTokens (st : Option (Bool × List Char)) : List Char → List (List Char)
  | [] =>
    match st with
    | none => []
    | some (_, run) => [run]
  | c :: cs =>
    match st with
    | none =>
      if isAsciiUpper c then scanTokens (some (true, [c])) cs
      else if isAsciiLower c then scanTokens (some (false, [c])) cs
      else scanTokens none cs
    | some (true, run) =>
      if isAsciiUpper c then scanTokens (some (true, run ++ [c])) cs
      else if isAsciiLower c then
        if run.length = 1 then scanTokens (some (false, run ++ [c])) cs
        else run.dropLast :: scanTokens (some (false, [run.getLastD c, c])) cs
      else run :: scanTokens none cs
    | some (false, run) =>
      if isAsciiLower c then scanTokens (some (false, run ++ [c])) cs
      else if isAsciiUpper c then run :: scanTokens (some (true, [c])) cs
      else run :: scanTokens none cs

/-- `re.findall(r"[A-Z]+(?![a-z])|[A-Z][a-z]*|[a-z]+", name)`. -/
def tokenize (l : List Char) : List (List Char) := scanTokens none l

/-- The connector-word set `{"of", "and", "the", "a", "an"}`. -/
def connectorWords : List (List Char) :=
  [['o', 'f'], ['a', 'n', 'd'], ['t', 'h', 'e'], ['a'], ['a', 'n']]

/-- The test `tok.lower() in {"of", "and", "the", "a", "an"}` (on tokens, which
consist of ASCII letters only, Python `str.lower` is `Char.toLower`). -/
def isConnector (tok : List Char) : Bool :=
  connectorWords.contains (tok.map Char.toLower)

/-- The letter-collecting loop of `initials_from_name`: append `tok[0]` of each
non-connector token, stopping as soon as three letters are collected. -/
def collectLetters : List (List Char) → List Char → List Char
  | [], acc => acc
  | tok :: rest, acc =>
    if isConnector tok then collectLetters rest acc
    else
      let acc2 := acc ++ [tok.headD ' ']
      if acc2.length = 3 then acc2 else collectLetters rest acc2

/-- Model of `initials_from_name`. The no-token return value is the literal
that the source file actually contains: the three characters `â`, `€`, `¢`
(the UTF-8 bytes of a bullet decoded as if they were cp1252 text), not the
single bullet character that the function's docstring promises. -/
def initials_from_name (name : String) : String :=
  let tokens := tokenize name.toList
  if tokens.isEmpty then "â€¢"
  else
    let letters := collectLetters tokens []
    let s := if letters.isEmpty then [name.toList.headD ' '] else letters
    String.mk (s.take 3)

/-- Python `x or y` for an optional string `x` and string `y`: `y` exactly when
`x` is `None` or empty. -/
def pyOrS (a : Option String) (b : String) : String :=
  match a with
  | some s => if s = "" then b else s
  | none => b

/-- Python `x or y` for two optional strings. -/
def pyOr (a b : Option String) : Option String :=
  match a with
  | some s => if s = "" then b else some s
  | none => b

/-- The linear-gradient definition emitted by `_gradient_def`, as structured
data: the four unit-square endpoint coordinates and the two stop colors (the
second may be `None`, which the f-string would render literally). -/
structure GradientDef where
  x1 : ℝ
  y1 : ℝ
  x2 : ℝ
  y2 : ℝ
  stop_from : String
  stop_to : Option String

/-- Model of `_gradient_def`: `math.radians(angle % 360)` followed by the
symmetric endpoint placement about the center of the unit square. -/
noncomputable def gradient_def (gradient_from : String) (gradient_to : Option String)
    (angle : ℤ) : GradientDef :=
  let rad : ℝ := ((angle % 360 : ℤ) : ℝ) * (Real.pi / 180)
  { x1 := 0.5 - 0.5 * Real.cos rad
    y1 := 0.5 - 0.5 * Real.sin rad
    x2 := 0.5 + 0.5 * Real.cos rad
    y2 := 0.5 + 0.5 * Real.sin rad
    stop_from := gradient_from
    stop_to := gradient_to }

/-- The three shape branches of `badge_svg`; every shape string other than
`"circle"` and `"diamond"` falls through to the rounded-rectangle branch. -/
inductive BadgeShape where
  | circle
  | diamond
  | rounded
  deriving DecidableEq, Repr

/-- Shape dispatch of `badge_svg`. -/
def shapeOf (shape : String) : BadgeShape :=
  if shape = "circle" then .circle
  else if shape = "diamond" then .diamond
  else .rounded

/-- The badge fragment emitted by `badge_svg`, as structured data: the gradient
defs block (when present), the fill value, the chosen text color, the shape
branch taken, the initials placed in the text node, and the stroke attributes
(emitted only when both stroke color and width are supplied). -/
structure Badge where
  defs : Option GradientDef
  fill : String
  text_color : Option String
  shape : BadgeShape
  initials : String
  stroke : Option (String × String)

/-- Model of `badge_svg`. -/
noncomputable def badge_svg (shape : String) (primary : String) (accent : Option String)
    (initials : String) (use_gradient : Bool) (gradient_from gradient_to : Option String)
    (gradient_angle : ℤ) (stroke_color stroke_width : Option String) : Badge :=
  let gf := pyOrS gradient_from primary
  let gt := pyOr gradient_to accent
  let defs := if use_gradient then some (gradient_def gf gt gradient_angle) else none
  let fill := if use_gradient then "url(#badgeGrad)" else primary
  let text_color :=
    if use_gradient then pick_initials_color gf gt
    else pick_initials_color primary accent
  let stroke :=
    match stroke_color, stroke_width with
    | some c, some w => some (c, w)
    | _, _ => none
  { defs := defs
    fill := fill
    text_color := text_color
    shape := shapeOf shape
    initials := initials
    stroke := stroke }

/-- One brand record of `brands.yaml`, with `Option` fields for the keys read
through `b.get`. -/
structure Brand where
  id : String
  name : String
  domain : String
  primary : Option String := none
  accent : Option String := none
  badge_shape : Option String := none
  bg_shape : Option String := none
  use_gradient : Bool := false
  gradient_from : Option String := none
  gradient_to : Option String := none
  gradient_angle : Option ℤ := none
  badge_stroke_color : Option String := none
  badge_stroke_width : Option String := none
  badge_initials : Option String := none

/-- The complete logo document written per brand (`TEMPLATE.format`), as
structured data: the badge fragment and the three substituted text values. -/
structure LogoDoc where
  badge : Badge
  brand_color : String
  brand_name : String
  domain : String

/-- One observable side effect of a driver run. -/
inductive Event where
  | mkdirE (path : String)
  | svgWrite (path : String) (doc : LogoDoc)
  | pngWrite (path : String) (w h : Nat)
  | stdout (line : String)
  | stderr (line : String)

/-- Model of `save_pngs`: with the rasterizer absent it only warns on standard
error; otherwise it writes the two raster renditions, confirming each. -/
def save_pngs (cairo : Bool) (svg_path : String) (folder : String) : List Event :=
  if cairo = false then
    [.stderr "cairosvg not available; skipping PNG export"]
  else
    let p1 := folder ++ "/logo.png"
    let p2 := folder ++ "/logo@2x.png"
    let _ := svg_path
    [.pngWrite p1 320 88, .stdout ("wrote " ++ p1),
     .pngWrite p2 640 176, .stdout ("wrote " ++ p2)]

/-- Line 147 of the driver:
`initials = b.get("badge_initials") or initials_from_name(b["name"])`. -/
def brandInitials (b : Brand) : String :=
  match b.badge_initials with
  | some s => if s = "" then initials_from_name b.name else s
  | none => initials_from_name b.name

/-- The per-brand body of the driver loop, as the event trace it produces. -/
noncomputable def processBrand (root : String) (cairo : Bool) (b : Brand) : List Event :=
  let folder := root ++ "/" ++ b.id
  let initials := brandInitials b
  let badge_shape := b.badge_shape.getD (b.bg_shape.getD "rounded")
  let use_grad := b.use_gradient
  let grad_from := if use_grad then b.gradient_from else none
  let grad_to := if use_grad then b.gradient_to else none
  let grad_angle : ℤ := if use_grad then b.gradient_angle.getD 0 else 0
  let badge := badge_svg badge_shape (b.primary.getD "#111827")
    (some (b.accent.getD "#6B7280")) initials use_grad grad_from grad_to grad_angle
    b.badge_stroke_color b.badge_stroke_width
  let doc : LogoDoc :=
    { badge := badge
      brand_color := b.accent.getD "#111827"
      brand_name := b.name
      domain := b.domain }
  let out := folder ++ "/logo.svg"
  [.mkdirE folder, .svgWrite out doc, .stdout ("wrote " ++ out)]
    ++ save_pngs cairo out folder

/-- Model of `main`: the event trace of one batch run over the configured
brand list, given the output root and whether `import cairosvg` succeeded. -/
noncomputable def mainRun (root : String) (cairo : Bool) (brands : List Brand) :
    List Event :=
  (brands.map (processBrand root cairo)).flatten

/-- Recognizes the raster-export-unavailable warning event. -/
def isRasterWarning (e : Event) : Bool :=
  match e with
  | .stderr s => s = "cairosvg not available; skipping PNG export"
  | _ => false

/-- Recognizes a raster (PNG) write event. -/
def isPngWrite (e : Event) : Bool :=
  match e with
  | .pngWrite _ _ _ => true
  | _ => false

/-- The path of a vector (SVG) write event. -/
def svgPathOf : Event → Option String
  | .svgWrite p _ => some p
  | _ => none

/-! ## Lemmas about the initials extractor -/

lemma collectLetters_eq_take (toks : List (List Char)) :
    ∀ acc : List Char, acc.length < 3 →
      collectLetters toks acc =
        (acc ++ (toks.filter (fun t => !isConnector t)).map (fun t => t.headD ' ')).take 3 := by
  induction toks with
  | nil =>
    intro acc h
    simp [collectLetters, List.take_of_length_le (le_of_lt h)]
  | cons tok rest ih =>
    intro acc h
    by_cases hc : isConnector tok
    · simpa [collectLetters, hc] using ih acc h
    · simp only [collectLetters, hc, Bool.false_eq_true, if_false]
      by_cases h3 : (acc ++ [tok.headD ' ']).length = 3
      · rw [if_pos h3]
        have hassoc : acc ++ (tok.headD ' ') :: (rest.filter
            (fun t => !isConnector t)).map (fun t => t.headD ' ')
            = (acc ++ [tok.headD ' ']) ++ (rest.filter
              (fun t => !isConnector t)).map (fun t => t.headD ' ') := by
          simp
        simp only [List.filter_cons, hc, Bool.not_false, List.map_cons, ite_true, hassoc,
          List.take_append_eq_append_take, h3]
        simp [← h3]
      · rw [if_neg h3]
        have hlt : (acc ++ [tok.headD ' ']).length < 3 := by
          have : (acc ++ [tok.headD ' ']).length = acc.length + 1 := by simp
          omega
        rw [ih _ hlt]
        simp [List.filter_cons, hc]

/-! ## Lemmas about the color math -/

lemma chan_nonneg {c : ℝ} (h : 0 ≤ c) : 0 ≤ chan c := by
  unfold chan
  split
  · positivity
  · exact Real.rpow_nonneg (by positivity) _

lemma relLumRGB_nonneg (rgb : Nat × Nat × Nat) : 0 ≤ relLumRGB rgb := by
  obtain ⟨r, g, b⟩ := rgb
  have h1 : 0 ≤ chan ((r : ℝ) / 255) := chan_nonneg (by positivity)
  have h2 : 0 ≤ chan ((g : ℝ) / 255) := chan_nonneg (by positivity)
  have h3 : 0 ≤ chan ((b : ℝ) / 255) := chan_nonneg (by positivity)
  simp only [relLumRGB]
  nlinarith

lemma chan_one : chan 1 = 1 := by
  unfold chan
  rw [if_neg (by norm_num), show ((1 : ℝ) + 0.055) / 1.055 = 1 by norm_num, Real.one_rpow]

lemma chan_zero : chan 0 = 0 := by
  unfold chan
  rw [if_pos (by norm_num)]
  norm_num

lemma relLum_white : relLumRGB (255, 255, 255) = 1 := by
  have h : ((255 : ℕ) : ℝ) / 255 = 1 := by norm_num
  simp only [relLumRGB, h, chan_one]
  norm_num

lemma relLum_yellow : relLumRGB (255, 255, 0) = 0.9278 := by
  have h : ((255 : ℕ) : ℝ) / 255 = 1 := by norm_num
  have h0 : ((0 : ℕ) : ℝ) / 255 = 0 := by norm_num
  simp only [relLumRGB, h, h0, chan_one, chan_zero]
  norm_num

lemma chan_le_sq {c : ℝ} (hc : ¬ c ≤ 0.03928) (h1 : c ≤ 1) :
    chan c ≤ ((c + 0.055) / 1.055) ^ 2 := by
  unfold chan
  rw [if_neg hc]
  push_neg at hc
  have hx0 : 0 < (c + 0.055) / 1.055 := div_pos (by linarith) (by norm_num)
  have hx1 : (c + 0.055) / 1.055 ≤ 1 := by
    rw [div_le_one (by norm_num)]
    linarith
  calc ((c + 0.055) / 1.055) ^ (2.4 : ℝ)
      ≤ ((c + 0.055) / 1.055) ^ ((2 : ℕ) : ℝ) :=
        Real.rpow_le_rpow_of_exponent_ge hx0 hx1 (by norm_num)
    _ = ((c + 0.055) / 1.055) ^ (2 : ℕ) := Real.rpow_natCast _ 2

lemma relLum_darkNavy_le : relLumRGB (17, 24, 39) ≤ 11 / 60 := by
  have h17 : chan ((17 : ℝ) / 255) ≤ (((17 : ℝ) / 255 + 0.055) / 1.055) ^ 2 :=
    chan_le_sq (by norm_num) (by norm_num)
  have h24 : chan ((24 : ℝ) / 255) ≤ (((24 : ℝ) / 255 + 0.055) / 1.055) ^ 2 :=
    chan_le_sq (by norm_num) (by norm_num)
  have h39 : chan ((39 : ℝ) / 255) ≤ (((39 : ℝ) / 255 + 0.055) / 1.055) ^ 2 :=
    chan_le_sq (by norm_num) (by norm_num)
  have e : relLumRGB (17, 24, 39) =
      0.2126 * chan ((17 : ℝ) / 255) + 0.7152 * chan ((24 : ℝ) / 255)
        + 0.0722 * chan ((39 : ℝ) / 255) := by
    simp only [relLumRGB]
    norm_num
  rw [e]
  nlinarith [h17, h24, h39]

lemma contrast_darkNavy_white : 4.5 ≤ contrastRGB (17, 24, 39) (255, 255, 255) := by
  unfold contrastRGB
  rw [relLum_white]
  have hL : relLumRGB (17, 24, 39) ≤ 11 / 60 := relLum_darkNavy_le
  have h0 : 0 ≤ relLumRGB (17, 24, 39) := relLumRGB_nonneg _
  rw [max_eq_right (by linarith), min_eq_left (by linarith)]
  rw [le_div_iff₀ (by linarith)]
  linarith

lemma contrast_yellow_white_lt : ¬ 4.5 ≤ contrastRGB (255, 255, 0) (255, 255, 255) := by
  unfold contrastRGB
  rw [relLum_white, relLum_yellow]
  rw [max_eq_right (by norm_num), min_eq_left (by norm_num)]
  rw [le_div_iff₀ (by norm_num)]
  norm_num

lemma hexNatAux?_isSome (cs : List Char) :
    ∀ acc : Nat, (∀ c ∈ cs, (hexDigitVal? c).isSome) →
      ∃ n, hexNatAux? acc cs = some n := by
  induction cs with
  | nil => exact fun acc _ => ⟨acc, rfl⟩
  | cons c cs ih =>
    intro acc h
    obtain ⟨d, hd⟩ := Option.isSome_iff_exists.mp (h c (List.mem_cons_self c cs))
    simp only [hexNatAux?, hd]
    exact ih _ fun x hx => h x (List.mem_cons_of_mem _ hx)

lemma hexNat?_isSome {cs : List Char} (hne : cs ≠ [])
    (h : ∀ c ∈ cs, (hexDigitVal? c).isSome) : ∃ n, hexNat? cs = some n := by
  cases cs with
  | nil => exact absurd rfl hne
  | cons c cs' => exact hexNatAux?_isSome _ _ h

lemma hex_to_rgb?_isSome {s : String} (h : IsHexColor s) :
    ∃ rgb, hex_to_rgb? s = some rgb := by
  obtain ⟨hlen, hdig⟩ := h
  have hlen' : (List.dropWhile (fun x => decide (x = '#')) s.data).length = 6 := hlen
  have h1 : ∃ n, hexNat? ((s.toList.dropWhile (· = '#')).take 2) = some n := by
    refine hexNat?_isSome (List.ne_nil_of_length_pos ?_)
      fun c hc => hdig c (List.take_subset _ _ hc)
    simp only [List.length_take]
    omega
  have h2 : ∃ n, hexNat? (((s.toList.dropWhile (· = '#')).drop 2).take 2) = some n := by
    refine hexNat?_isSome (List.ne_nil_of_length_pos ?_)
      fun c hc => hdig c (List.drop_subset _ _ (List.take_subset _ _ hc))
    simp only [List.length_take, List.length_drop]
    omega
  have h3 : ∃ n, hexNat? (((s.toList.dropWhile (· = '#')).drop 4).take 2) = some n := by
    refine hexNat?_isSome (List.ne_nil_of_length_pos ?_)
      fun c hc => hdig c (List.drop_subset _ _ (List.take_subset _ _ hc))
    simp only [List.length_take, List.length_drop]
    omega
  obtain ⟨r, hr⟩ := h1
  obtain ⟨g, hg⟩ := h2
  obtain ⟨b, hb⟩ := h3
  exact ⟨(r, g, b), by simp only [hex_to_rgb?, hr, hg, hb]⟩

/-! ## Lemmas about `pick_initials_color` -/

lemma allContrastOkW_true_iff (bgs : List String) :
    allContrastOkW bgs = some true ↔
      ∀ bg ∈ bgs, ∃ r, contrastRatioOf bg "#FFFFFF" = some r ∧ 4.5 ≤ r := by
  induction bgs with
  | nil => simp [allContrastOkW]
  | cons bg rest ih =>
    unfold allContrastOkW
    cases hcr : contrastRatioOf bg "#FFFFFF" with
    | none => simp [hcr]
    | some r =>
      by_cases h45 : (4.5 : ℝ) ≤ r
      · simp [hcr, h45, ih, List.forall_mem_cons]
      · simp [hcr, h45, List.forall_mem_cons]

lemma allContrastOkW_isSome {bgs : List String}
    (h : ∀ bg ∈ bgs, (hex_to_rgb? bg).isSome) : ∃ v, allContrastOkW bgs = some v := by
  induction bgs with
  | nil => exact ⟨true, rfl⟩
  | cons bg rest ih =>
    obtain ⟨x, hx⟩ := Option.isSome_iff_exists.mp (h bg (List.mem_cons_self bg rest))
    have hcr : contrastRatioOf bg "#FFFFFF" = some (contrastRGB x (255, 255, 255)) := by
      simp only [contrastRatioOf, hx,
        show hex_to_rgb? "#FFFFFF" = some (255, 255, 255) from by decide]
    by_cases h45 : (4.5 : ℝ) ≤ contrastRGB x (255, 255, 255)
    · obtain ⟨v, hv⟩ := ih fun b hb => h b (List.mem_cons_of_mem _ hb)
      exact ⟨v, by simp only [allContrastOkW, hcr, if_pos h45, hv]⟩
    · exact ⟨false, by simp only [allContrastOkW, hcr, if_neg h45]⟩

lemma pick_darkNavy_white : pick_initials_color "#111827" none = some "white" := by
  have hcr : contrastRatioOf "#111827" "#FFFFFF"
      = some (contrastRGB (17, 24, 39) (255, 255, 255)) := by
    simp only [contrastRatioOf, show hex_to_rgb? "#111827" = some (17, 24, 39) from by decide,
      show hex_to_rgb? "#FFFFFF" = some (255, 255, 255) from by decide]
  have hbg : backgroundsOf "#111827" none = ["#111827"] := rfl
  simp only [pick_initials_color, hbg, allContrastOkW, hcr,
    if_pos contrast_darkNavy_white]

lemma pick_yellow_dark : pick_initials_color "#FFFF00" none = some "#111827" := by
  have hcr : contrastRatioOf "#FFFF00" "#FFFFFF"
      = some (contrastRGB (255, 255, 0) (255, 255, 255)) := by
    simp only [contrastRatioOf, show hex_to_rgb? "#FFFF00" = some (255, 255, 0) from by decide,
      show hex_to_rgb? "#FFFFFF" = some (255, 255, 255) from by decide]
  have hbg : backgroundsOf "#FFFF00" none = ["#FFFF00"] := rfl
  simp only [pick_initials_color, hbg, allContrastOkW, hcr,
    if_neg contrast_yellow_white_lt]

/-! ## Claim theorems for the color math -/

/-- C7: for well-formed colors, the contrast ratio is `(L1 + 0.05) / (L2 +
0.05)` with `L1` the larger and `L2` the smaller of the two relative
luminances, hence at least 1; and the self-contrast of any color is 1. -/
theorem contrastRatio_formula_and_ge_one (a b : String)
    (ha : IsHexColor a) (hb : IsHexColor b) :
    ∃ La Lb r, rel_lum? a = some La ∧ rel_lum? b = some Lb ∧
      contrastRatioOf a b = some r ∧
      r = (max La Lb + 0.05) / (min La Lb + 0.05) ∧ 1 ≤ r ∧
      contrastRatioOf a a = some 1 := by
  obtain ⟨x, hx⟩ := hex_to_rgb?_isSome ha
  obtain ⟨y, hy⟩ := hex_to_rgb?_isSome hb
  have h0x : 0 ≤ relLumRGB x := relLumRGB_nonneg x
  have h0y : 0 ≤ relLumRGB y := relLumRGB_nonneg y
  refine ⟨relLumRGB x, relLumRGB y, contrastRGB x y, by simp [rel_lum?, hx],
    by simp [rel_lum?, hy], by simp [contrastRatioOf, hx, hy], rfl, ?_, ?_⟩
  · unfold contrastRGB
    have hmin : 0 ≤ min (relLumRGB x) (relLumRGB y) := le_min h0x h0y
    rw [one_le_div (by linarith)]
    have := min_le_max (a := relLumRGB x) (b := relLumRGB y)
    linarith
  · have : contrastRGB x x = 1 := by
      unfold contrastRGB
      rw [max_self, min_self, div_self (by linarith)]
    simp [contrastRatioOf, hx, this]

/-- Witness for C7 at the concrete pair "#111827", "#FFFF00". -/
theorem contrastRatio_formula_and_ge_one_witness :
    ∃ La Lb r, rel_lum? "#111827" = some La ∧ rel_lum? "#FFFF00" = some Lb ∧
      contrastRatioOf "#111827" "#FFFF00" = some r ∧
      r = (max La Lb + 0.05) / (min La Lb + 0.05) ∧ 1 ≤ r ∧
      contrastRatioOf "#111827" "#111827" = some 1 :=
  contrastRatio_formula_and_ge_one "#111827" "#FFFF00" (by decide) (by decide)

/-- C1: `pick_initials_color` returns white exactly when the contrast ratio of
white against every supplied background color (primary, plus the accent when
it is present and non-empty) is at least 4.5, and returns the dark color
otherwise; concretely, background "#111827" gives white and background
"#FFFF00" gives the dark color. -/
theorem pick_initials_color_white_iff (primary : String) (accent : Option String)
    (hparse : ∀ bg ∈ backgroundsOf primary accent, (hex_to_rgb? bg).isSome) :
    (pick_initials_color primary accent = some "white" ↔
      ∀ bg ∈ backgroundsOf primary accent,
        ∃ r, contrastRatioOf bg "#FFFFFF" = some r ∧ 4.5 ≤ r) ∧
    (pick_initials_color primary accent = some "white" ∨
      pick_initials_color primary accent = some "#111827") ∧
    pick_initials_color "#111827" none = some "white" ∧
    pick_initials_color "#FFFF00" none = some "#111827" := by
  obtain ⟨v, hv⟩ := allContrastOkW_isSome hparse
  refine ⟨?_, ?_, pick_darkNavy_white, pick_yellow_dark⟩
  · rw [← allContrastOkW_true_iff]
    unfold pick_initials_color
    rw [hv]
    cases v with
    | true => simp
    | false => simp
  · unfold pick_initials_color
    rw [hv]
    cases v with
    | true => exact Or.inl rfl
    | false => exact Or.inr rfl

/-- Witness for C1 at primary "#111827" with no accent. -/
theorem pick_initials_color_white_iff_witness :
    pick_initials_color "#111827" none = some "white" :=
  (pick_initials_color_white_iff "#111827" none (by decide)).2.2.1

/-! ## Claim theorems for the initials extractor -/

/-- C4: `initials_from_name` tokenizes on camelCase/acronym boundaries and on
separators, so "AIVidz" splits into the tokens "AI" and "Vidz", and both
"AIVidz" and "AI-Vidz" yield the initials "AV". -/
theorem initials_camel_acronym_split :
    tokenize "AIVidz".toList = [['A', 'I'], ['V', 'i', 'd', 'z']] ∧
      initials_from_name "AIVidz" = "AV" ∧ initials_from_name "AI-Vidz" = "AV" := by
  decide

/-- C5: the initials are the first letters of the remaining (non-connector)
tokens in encounter order, stopping once three letters are collected, so the
result never exceeds three characters; "OneTwoThreeFour" gives "OTT". -/
theorem initials_capped_at_three :
    (∀ toks : List (List Char),
        collectLetters toks [] =
          ((toks.filter (fun t => !isConnector t)).map (fun t => t.headD ' ')).take 3) ∧
      (∀ name : String, (initials_from_name name).length ≤ 3) ∧
      initials_from_name "OneTwoThreeFour" = "OTT" := by
  refine ⟨fun toks => by simpa using collectLetters_eq_take toks [] (by norm_num),
    ?_, by decide⟩
  intro name
  unfold initials_from_name
  by_cases hT : (tokenize name.toList).isEmpty
  · have hT' : tokenize name.toList = [] := by simpa using hT
    simp only [hT', List.isEmpty_nil, if_true]
    decide
  · simp only [hT, if_false, Bool.false_eq_true]
    have : (String.mk ((if (collectLetters (tokenize name.toList) []).isEmpty
        then [name.toList.headD ' ']
        else collectLetters (tokenize name.toList) []).take 3)).length
        = ((if (collectLetters (tokenize name.toList) []).isEmpty
        then [name.toList.headD ' ']
        else collectLetters (tokenize name.toList) []).take 3).length := rfl
    rw [this, List.length_take]
    exact min_le_left _ _

/-- C6: a token whose lowercased form is a connector word (of, and, the, a,
an) is skipped wherever it occurs among the tokens; in particular
"Lord of Shadows" yields "LS", not "LoS". -/
theorem initials_skip_connectors :
    (∀ toks : List (List Char),
        collectLetters toks [] =
          collectLetters (toks.filter (fun t => !isConnector t)) []) ∧
      initials_from_name "Lord of Shadows" = "LS" := by
  constructor
  · intro toks
    rw [collectLetters_eq_take toks [] (by norm_num),
      collectLetters_eq_take _ [] (by norm_num)]
    simp [List.filter_filter]
  · decide

/-- C2 (code bug): on a letterless name, `initials_from_name` returns the
literal that the source file actually contains, the three-character string
"â€¢" (the UTF-8 bytes of a bullet decoded as cp1252), not the single bullet
glyph its docstring promises. -/
theorem initials_placeholder_is_mojibake :
    initials_from_name "" = "â€¢" ∧ initials_from_name "123" = "â€¢" ∧
      (initials_from_name "").length = 3 := by
  decide

/-! ## Claim theorems for the badge composer -/

/-- C8: with the gradient flag set, the badge's gradient runs from
gradient-from (defaulting to the primary color when unset) to gradient-to
(defaulting to the accent color when unset) and the initials text color is
picked against exactly that from/to pair; with the flag unset, the fill is
the flat primary color and the text color is picked against primary plus the
accent. -/
theorem badge_svg_gradient_and_flat (shape primary : String) (accent : Option String)
    (initials : String) (gf gt : Option String) (angle : ℤ) (sc sw : Option String)
    (hgf : ∀ s, gf = some s → s ≠ "") (hgt : ∀ s, gt = some s → s ≠ "") :
    ((badge_svg shape primary accent initials true gf gt angle sc sw).defs
        = some (gradient_def (gf.getD primary)
            (match gt with | some s => some s | none => accent) angle) ∧
      (badge_svg shape primary accent initials true gf gt angle sc sw).fill
        = "url(#badgeGrad)" ∧
      (badge_svg shape primary accent initials true gf gt angle sc sw).text_color
        = pick_initials_color (gf.getD primary)
            (match gt with | some s => some s | none => accent)) ∧
    ((badge_svg shape primary accent initials false gf gt angle sc sw).defs = none ∧
      (badge_svg shape primary accent initials false gf gt angle sc sw).fill = primary ∧
      (badge_svg shape primary accent initials false gf gt angle sc sw).text_color
        = pick_initials_color primary accent) := by
  have hgf' : pyOrS gf primary = gf.getD primary := by
    cases gf with
    | none => rfl
    | some s => simp [pyOrS, hgf s rfl]
  have hgt' : pyOr gt accent = (match gt with | some s => some s | none => accent) := by
    cases gt with
    | none => rfl
    | some s => simp [pyOr, hgt s rfl]
  refine ⟨⟨?_, ?_, ?_⟩, ⟨?_, ?_, ?_⟩⟩ <;> simp [badge_svg, hgf', hgt']

/-- Witness for C8 with a set gradient-from, an unset gradient-to, and both
branches of the gradient flag. -/
theorem badge_svg_gradient_and_flat_witness :
    (badge_svg "circle" "#111827" (some "#6B7280") "AV" true (some "#123456") none 0
        none none).text_color = pick_initials_color "#123456" (some "#6B7280") ∧
      (badge_svg "circle" "#111827" (some "#6B7280") "AV" false (some "#123456") none 0
        none none).fill = "#111827" := by
  have h := badge_svg_gradient_and_flat "circle" "#111827" (some "#6B7280") "AV"
    (some "#123456") none 0 none none
    (fun s hs => by cases hs; decide) (fun s hs => by cases hs)
  exact ⟨h.1.2.2, h.2.2.1⟩

/-- C9: `badge_svg` is total in its shape argument: any shape string other
than "circle" and "diamond" (in particular anything outside the documented
enumeration) takes the rounded branch and produces exactly the rounded-square
badge fragment. -/
theorem badge_svg_unknown_shape_rounded (shape primary : String) (accent : Option String)
    (initials : String) (ug : Bool) (gf gt : Option String) (angle : ℤ)
    (sc sw : Option String) (hc : shape ≠ "circle") (hd : shape ≠ "diamond") :
    (badge_svg shape primary accent initials ug gf gt angle sc sw).shape
        = BadgeShape.rounded ∧
      badge_svg shape primary accent initials ug gf gt angle sc sw
        = badge_svg "rounded" primary accent initials ug gf gt angle sc sw := by
  have hsh : shapeOf shape = BadgeShape.rounded := by
    unfold shapeOf
    rw [if_neg hc, if_neg hd]
  have hsh2 : shapeOf "rounded" = BadgeShape.rounded := by decide
  constructor
  · simp [badge_svg, hsh]
  · simp [badge_svg, hsh, hsh2]

/-- Witness for C9 at the undocumented shape "hexagon". -/
theorem badge_svg_unknown_shape_rounded_witness :
    (badge_svg "hexagon" "#111827" none "AV" false none none 0 none none).shape
        = BadgeShape.rounded ∧
      badge_svg "hexagon" "#111827" none "AV" false none none 0 none none
        = badge_svg "rounded" "#111827" none "AV" false none none 0 none none :=
  badge_svg_unknown_shape_rounded "hexagon" "#111827" none "AV" false none none 0
    none none (by decide) (by decide)

/-! ## Claim theorems for the batch driver -/

/-- A minimal brand record, used to exhibit driver behavior on a 2-brand run. -/
def brandA : Brand := { id := "acme", name := "Acme Labs", domain := "acme.example" }

/-- A second minimal brand record for the 2-brand run. -/
def brandB : Brand := { id := "beta", name := "Beta Corp", domain := "beta.example" }

/-- C3 counterexample: with the rasterizer unavailable and two brands
configured, the raster-export-unavailable warning is emitted twice (once per
brand), so it is not emitted exactly once for the whole run. -/
theorem raster_warning_not_once_for_run :
    (mainRun "out" false [brandA, brandB]).countP isRasterWarning = 2 ∧
      ¬ (mainRun "out" false [brandA, brandB]).countP isRasterWarning = 1 := by
  have h : (mainRun "out" false [brandA, brandB]).countP isRasterWarning = 2 := rfl
  exact ⟨h, by rw [h]; omega⟩

/-- C3 (amended): with the rasterizer unavailable, the driver still writes the
vector file for every brand in configuration order, writes no raster file,
and emits the raster-export-unavailable warning once per brand — that is, as
many times as there are brands, not once for the whole run. -/
theorem raster_unavailable_vector_still_written (root : String) (brands : List Brand) :
    (mainRun root false brands).filterMap svgPathOf
        = brands.map (fun b => root ++ "/" ++ b.id ++ "/logo.svg") ∧
      (mainRun root false brands).countP isPngWrite = 0 ∧
      (mainRun root false brands).countP isRasterWarning = brands.length := by
  induction brands with
  | nil => exact ⟨rfl, rfl, rfl⟩
  | cons b bs ih =>
    obtain ⟨ih1, ih2, ih3⟩ := ih
    have hmain : mainRun root false (b :: bs)
        = processBrand root false b ++ mainRun root false bs := by
      simp [mainRun]
    refine ⟨?_, ?_, ?_⟩
    · rw [hmain, List.filterMap_append, ih1]
      simp [processBrand, save_pngs, svgPathOf]
    · rw [hmain, List.countP_append, ih2]
      simp [processBrand, save_pngs, isPngWrite]
    · rw [hmain, List.countP_append, ih3]
      simp [processBrand, save_pngs, isRasterWarning]
      omega

/-- C10: a falsy initials override (key absent, or present but the empty
string) is ignored and the badge initials are derived from the display name;
a non-empty override is used verbatim. -/
theorem brandInitials_override_or_derived (b : Brand) :
    ((b.badge_initials = none ∨ b.badge_initials = some "") →
      brandInitials b = initials_from_name b.name) ∧
    (∀ s, b.badge_initials = some s → s ≠ "" → brandInitials b = s) := by
  constructor
  · rintro (h | h) <;> simp [brandInitials, h]
  · intro s hs hne
    simp [brandInitials, hs, hne]

/-- A brand record whose initials override is present but empty. -/
def brandEmptyOverride : Brand :=
  { id := "acme", name := "Acme Labs", domain := "d", badge_initials := some "" }

/-- A brand record with a non-empty initials override. -/
def brandFullOverride : Brand :=
  { id := "acme", name := "Acme Labs", domain := "d", badge_initials := some "ZZ" }

/-- Witness for C10 at a brand with an empty-string override and at one with a
non-empty override. -/
theorem brandInitials_override_or_derived_witness :
    brandInitials brandEmptyOverride = initials_from_name "Acme Labs" ∧
      brandInitials brandFullOverride = "ZZ" :=
  ⟨(brandInitials_override_or_derived brandEmptyOverride).1 (Or.inr rfl),
    (brandInitials_override_or_derived brandFullOverride).2 "ZZ" rfl (by decide)⟩

end GenLogos

